import Mathlib

/-! Verification of the Volt behavior/forecast engine.

Numbers are modelled as exact rationals (`ℚ`).  The Python code stores a
`std_dev` field computed with `math.sqrt`; since the square root of a rational
is in general irrational, every definition that needs it is parameterised by an
abstract square-root approximation `sq : ℚ → ℚ`, and no theorem below depends
on the value of `sq`.
-/

namespace Volt

/-- Statistics record kept per spending category (and for income), mirroring
the Python dict with keys count, sum, mean, variance, std_dev, m2, min, max.
`count` is rational because the decay step scales it by a fractional factor. -/
structure WelfordStats where
  count : ℚ
  sum : ℚ
  mean : ℚ
  variance : ℚ
  std_dev : ℚ
  m2 : ℚ
  min : ℚ
  max : ℚ
deriving Repr, DecidableEq

/-- Modelled from the spec: `StatisticsService.update_welford_stats` is not in
the repository snapshot (only its callers and tests are), so this follows the
recurrence given in the spec verbatim: `count += 1; delta = value - mean;
mean += delta/count; delta2 = value - mean; M2 += delta*delta2;
variance = M2/count; std_dev = sqrt(variance); sum += value;
min = min(min, value); max = max(max, value)`, with the `let`-bound
intermediate values substituted in. -/
def update_welford_stats (sq : ℚ → ℚ) (s : WelfordStats) (x : ℚ) : WelfordStats where
  count := s.count + 1
  sum := s.sum + x
  mean := s.mean + (x - s.mean) / (s.count + 1)
  variance := (s.m2 + (x - s.mean) * (x - (s.mean + (x - s.mean) / (s.count + 1)))) / (s.count + 1)
  std_dev := sq ((s.m2 + (x - s.mean) * (x - (s.mean + (x - s.mean) / (s.count + 1)))) / (s.count + 1))
  m2 := s.m2 + (x - s.mean) * (x - (s.mean + (x - s.mean) / (s.count + 1)))
  min := min s.min x
  max := max s.max x

/-- Modelled from the spec: `StatisticsService.apply_time_decay` is not in the
repository snapshot; per the spec it scales `count`, `sum` and `M2` by the
factor and leaves `min`/`max` (and the derived `mean`) untouched. -/
def apply_time_decay (s : WelfordStats) (factor : ℚ) : WelfordStats :=
  { s with count := s.count * factor, sum := s.sum * factor, m2 := s.m2 * factor }

/-- Fresh per-category stats record created by `BehaviorEngine.update_model`
for a category's first transaction: zero moments, min = max = amount. -/
def initialStats (amount : ℚ) : WelfordStats :=
  { count := 0, sum := 0, mean := 0, variance := 0, std_dev := 0, m2 := 0
    min := amount, max := amount }

/-- Sum of squares of a list of values. -/
def sqSum (l : List ℚ) : ℚ := (l.map (fun v => v * v)).sum

/-- Direct batch mean of a list of values. -/
def batchMean (l : List ℚ) : ℚ := l.sum / (l.length : ℚ)

/-- Direct batch population variance of a list of values. -/
def batchVariance (l : List ℚ) : ℚ :=
  (l.map (fun v => (v - batchMean l) ^ 2)).sum / (l.length : ℚ)

/-- Direct batch minimum of a nonempty list `x :: xs`. -/
def batchMin (x : ℚ) (xs : List ℚ) : ℚ := xs.foldl min x

/-- Direct batch maximum of a nonempty list `x :: xs`. -/
def batchMax (x : ℚ) (xs : List ℚ) : ℚ := xs.foldl max x

/-- Feeding the nonempty value sequence `x :: xs` one at a time through the
accumulator, starting from the fresh record the engine creates for the first
transaction (no decay applied anywhere). -/
def runWelford (sq : ℚ → ℚ) (x : ℚ) (xs : List ℚ) : WelfordStats :=
  (x :: xs).foldl (update_welford_stats sq) (initialStats x)

theorem sum_sq_sub_const (c : ℚ) (l : List ℚ) :
    (l.map (fun v => (v - c) ^ 2)).sum
      = sqSum l - 2 * c * l.sum + (l.length : ℚ) * c ^ 2 := by
  induction l with
  | nil => simp [sqSum]
  | cons a t ih =>
    simp only [List.map_cons, List.sum_cons, sqSum, ih, List.length_cons, sqSum] at *
    push_cast
    ring

theorem batchVariance_eq_moments (l : List ℚ) :
    batchVariance l = (sqSum l - l.sum ^ 2 / (l.length : ℚ)) / (l.length : ℚ) := by
  rcases eq_or_ne l [] with h | h
  · subst h; simp [batchVariance, sqSum]
  · have hn : (l.length : ℚ) ≠ 0 :=
      Nat.cast_ne_zero.mpr (List.length_pos.mpr h).ne'
    rw [batchVariance, sum_sq_sub_const, batchMean]
    field_simp
    ring

theorem welford_step (sq : ℚ → ℚ) (pre : List ℚ) (x : ℚ) (s : WelfordStats)
    (h1 : s.count = (pre.length : ℚ)) (h2 : s.sum = pre.sum)
    (h3 : s.mean = pre.sum / (pre.length : ℚ))
    (h4 : s.m2 = sqSum pre - pre.sum ^ 2 / (pre.length : ℚ)) :
    (update_welford_stats sq s x).count = ((pre ++ [x]).length : ℚ) ∧
    (update_welford_stats sq s x).sum = (pre ++ [x]).sum ∧
    (update_welford_stats sq s x).mean = (pre ++ [x]).sum / ((pre ++ [x]).length : ℚ) ∧
    (update_welford_stats sq s x).m2
      = sqSum (pre ++ [x]) - (pre ++ [x]).sum ^ 2 / ((pre ++ [x]).length : ℚ) := by
  rcases eq_or_ne pre [] with h | h
  · subst h
    have h1' : s.count = 0 := by simpa using h1
    have h2' : s.sum = 0 := by simpa using h2
    have h3' : s.mean = 0 := by simpa using h3
    have h4' : s.m2 = 0 := by simpa [sqSum] using h4
    refine ⟨?_, ?_, ?_, ?_⟩
    all_goals simp [update_welford_stats, sqSum, h1', h2', h3', h4']
    all_goals ring_nf
  · have hn : (pre.length : ℚ) ≠ 0 :=
      Nat.cast_ne_zero.mpr (List.length_pos.mpr h).ne'
    have hn1 : (pre.length : ℚ) + 1 ≠ 0 := by positivity
    have hsq : sqSum (pre ++ [x]) = sqSum pre + x * x := by
      simp [sqSum]
    refine ⟨?_, ?_, ?_, ?_⟩
    · simp only [update_welford_stats, h1, List.length_append, List.length_cons,
        List.length_nil]
      push_cast
      ring
    · simp [update_welford_stats, h2]
    · simp only [update_welford_stats, h1, h3, List.sum_append, List.length_append,
        List.sum_cons, List.sum_nil, List.length_cons, List.length_nil]
      push_cast
      field_simp
      ring
    · simp only [update_welford_stats, h1, h3, h4, hsq, List.sum_append, List.length_append,
        List.sum_cons, List.sum_nil, List.length_cons, List.length_nil]
      push_cast
      field_simp
      ring

theorem welford_foldl_inv (sq : ℚ → ℚ) :
    ∀ (rest pre : List ℚ) (s : WelfordStats),
      s.count = (pre.length : ℚ) → s.sum = pre.sum →
      s.mean = pre.sum / (pre.length : ℚ) →
      s.m2 = sqSum pre - pre.sum ^ 2 / (pre.length : ℚ) →
      s.variance = s.m2 / s.count →
      (rest.foldl (update_welford_stats sq) s).count = (((pre ++ rest).length : ℕ) : ℚ) ∧
      (rest.foldl (update_welford_stats sq) s).sum = (pre ++ rest).sum ∧
      (rest.foldl (update_welford_stats sq) s).mean
        = (pre ++ rest).sum / ((pre ++ rest).length : ℚ) ∧
      (rest.foldl (update_welford_stats sq) s).m2
        = sqSum (pre ++ rest) - (pre ++ rest).sum ^ 2 / ((pre ++ rest).length : ℚ) ∧
      (rest.foldl (update_welford_stats sq) s).variance
        = (rest.foldl (update_welford_stats sq) s).m2
            / (rest.foldl (update_welford_stats sq) s).count := by
  intro rest
  induction rest with
  | nil =>
    intro pre s h1 h2 h3 h4 h5
    simpa using ⟨h1, h2, h3, h4, h5⟩
  | cons x rest ih =>
    intro pre s h1 h2 h3 h4 h5
    obtain ⟨g1, g2, g3, g4⟩ := welford_step sq pre x s h1 h2 h3 h4
    have g5 : (update_welford_stats sq s x).variance
        = (update_welford_stats sq s x).m2 / (update_welford_stats sq s x).count := by
      simp [update_welford_stats]
    have := ih (pre ++ [x]) (update_welford_stats sq s x) g1 g2 g3 g4 g5
    simpa [List.append_assoc] using this

theorem welford_foldl_min (sq : ℚ → ℚ) :
    ∀ (l : List ℚ) (s : WelfordStats),
      (l.foldl (update_welford_stats sq) s).min = l.foldl min s.min := by
  intro l
  induction l with
  | nil => intro s; rfl
  | cons x t ih =>
    intro s
    simpa [update_welford_stats] using ih (update_welford_stats sq s x)

theorem welford_foldl_max (sq : ℚ → ℚ) :
    ∀ (l : List ℚ) (s : WelfordStats),
      (l.foldl (update_welford_stats sq) s).max = l.foldl max s.max := by
  intro l
  induction l with
  | nil => intro s; rfl
  | cons x t ih =>
    intro s
    simpa [update_welford_stats] using ih (update_welford_stats sq s x)

/-- C1: for every finite sequence of values fed one at a time through the
accumulator with no decay, the resulting count, sum, mean, population variance,
min and max equal the direct batch computation over the whole sequence; in
particular values [10, 20, 30] give count = 3, sum = 60, mean = 20, population
variance = 200/3 (≈ 66.667, bracketed below), min = 10, max = 30, and the
standard deviation sqrt(200/3) lies between 8.164 and 8.165 (≈ 8.165). -/
theorem C1_welford_refines_batch (sq : ℚ → ℚ) (x : ℚ) (xs : List ℚ) :
    (runWelford sq x xs).count = (((x :: xs).length : ℕ) : ℚ) ∧
    (runWelford sq x xs).sum = (x :: xs).sum ∧
    (runWelford sq x xs).mean = batchMean (x :: xs) ∧
    (runWelford sq x xs).variance = batchVariance (x :: xs) ∧
    (runWelford sq x xs).min = batchMin x xs ∧
    (runWelford sq x xs).max = batchMax x xs ∧
    (runWelford sq 10 [20, 30]).count = 3 ∧
    (runWelford sq 10 [20, 30]).sum = 60 ∧
    (runWelford sq 10 [20, 30]).mean = 20 ∧
    (runWelford sq 10 [20, 30]).variance = 200 / 3 ∧
    (runWelford sq 10 [20, 30]).min = 10 ∧
    (runWelford sq 10 [20, 30]).max = 30 ∧
    ((66666 : ℚ) / 1000 < 200 / 3 ∧ (200 : ℚ) / 3 < 66667 / 1000) ∧
    ((8164 : ℚ) / 1000) ^ 2 < 200 / 3 ∧ (200 : ℚ) / 3 < ((8165 : ℚ) / 1000) ^ 2 := by
  have base : ∀ (y : ℚ) (ys : List ℚ),
      (runWelford sq y ys).count = (((y :: ys).length : ℕ) : ℚ) ∧
      (runWelford sq y ys).sum = (y :: ys).sum ∧
      (runWelford sq y ys).mean = batchMean (y :: ys) ∧
      (runWelford sq y ys).variance = batchVariance (y :: ys) ∧
      (runWelford sq y ys).min = batchMin y ys ∧
      (runWelford sq y ys).max = batchMax y ys := by
    intro y ys
    have h := welford_foldl_inv sq (y :: ys) [] (initialStats y)
      (by simp [initialStats]) (by simp [initialStats])
      (by simp [initialStats]) (by simp [initialStats, sqSum])
      (by simp [initialStats])
    simp only [List.nil_append] at h
    obtain ⟨h1, h2, h3, h4, h5⟩ := h
    have hvar : (runWelford sq y ys).variance = batchVariance (y :: ys) := by
      rw [batchVariance_eq_moments]
      rw [runWelford] at *
      rw [h5, h4, h1]
    refine ⟨h1, h2, ?_, hvar, ?_, ?_⟩
    · rw [runWelford] at *; rw [h3, batchMean]
    · have := welford_foldl_min sq (y :: ys) (initialStats y)
      rw [runWelford, this]
      simp [initialStats, batchMin]
    · have := welford_foldl_max sq (y :: ys) (initialStats y)
      rw [runWelford, this]
      simp [initialStats, batchMax]
  obtain ⟨e1, e2, e3, e4, e5, e6⟩ := base 10 [20, 30]
  obtain ⟨g1, g2, g3, g4, g5, g6⟩ := base x xs
  refine ⟨g1, g2, g3, g4, g5, g6, ?_, ?_, ?_, ?_, ?_, ?_, ?_, ?_, ?_⟩
  · rw [e1]; norm_num
  · rw [e2]; norm_num
  · rw [e3]; norm_num [batchMean]
  · rw [e4, batchVariance_eq_moments]; norm_num [sqSum]
  · rw [e5]; norm_num [batchMin]
  · rw [e6]; norm_num [batchMax]
  · norm_num
  · norm_num
  · norm_num

/-! Section: Reallocation request validation (`ReallocationRequest.validate_balanced`) -/

/-- Net total of a reallocation deltas map (`sum(v.values())`). -/
def reallocTotal (v : List (String × ℚ)) : ℚ := (v.map Prod.snd).sum

/-- The validator from `ReallocationRequest.validate_balanced`: raises a
validation error when the deltas sum differs from zero by more than 0.01,
otherwise returns the map unchanged. -/
def validate_balanced (v : List (String × ℚ)) : Except String (List (String × ℚ)) :=
  if |reallocTotal v| > 1 / 100 then
    Except.error "Reallocations must sum to zero. Money must be moved, not created or destroyed."
  else
    Except.ok v

/-- True when the validator rejected the request. -/
def rejects (r : Except String (List (String × ℚ))) : Bool :=
  match r with
  | Except.error _ => true
  | Except.ok _ => false

/-- C4: a reallocation request is rejected if and only if the absolute value of
the sum of its deltas exceeds 0.01; an accepted map comes back exactly as
submitted (never normalized); DINING -500 / SAVINGS +500 is accepted and
DINING -500 / SAVINGS +400 is rejected. -/
theorem C4_reallocation_zero_sum (v : List (String × ℚ)) :
    (rejects (validate_balanced v) = true ↔ |reallocTotal v| > 1 / 100) ∧
    (validate_balanced v = Except.ok v ∨ rejects (validate_balanced v) = true) ∧
    validate_balanced [("DINING", -500), ("SAVINGS", 500)]
      = Except.ok [("DINING", -500), ("SAVINGS", 500)] ∧
    rejects (validate_balanced [("DINING", -500), ("SAVINGS", 400)]) = true := by
  refine ⟨?_, ?_, ?_, ?_⟩
  · unfold validate_balanced
    split <;> simp_all [rejects]
  · unfold validate_balanced
    split <;> simp [rejects]
  · unfold validate_balanced
    norm_num [reallocTotal]
  · unfold validate_balanced
    norm_num [reallocTotal, rejects]

/-! Section: Impulse score EWMA (`BehaviorEngine.update_model`, step 6) -/

/-- One impulse-score update from `BehaviorEngine.update_model`:
`model.impulse_score = 0.9 * model.impulse_score + 0.1 * impulse_flag`. -/
def impulseStep (s flag : ℚ) : ℚ := 9 / 10 * s + 1 / 10 * flag

theorem impulseStep_mem (s flag : ℚ) (hs0 : 0 ≤ s) (hs1 : s ≤ 1)
    (hf0 : 0 ≤ flag) (hf1 : flag ≤ 1) :
    0 ≤ impulseStep s flag ∧ impulseStep s flag ≤ 1 := by
  unfold impulseStep
  constructor <;> nlinarith

theorem impulse_foldl_mem :
    ∀ (flags : List ℚ) (s : ℚ), 0 ≤ s → s ≤ 1 →
      (∀ f ∈ flags, f = 0 ∨ f = 1) →
      0 ≤ flags.foldl impulseStep s ∧ flags.foldl impulseStep s ≤ 1 := by
  intro flags
  induction flags with
  | nil => intro s h0 h1 _; simpa using ⟨h0, h1⟩
  | cons f t ih =>
    intro s h0 h1 hf
    have hf' : f = 0 ∨ f = 1 := hf f (List.mem_cons_self f t)
    have hf0 : 0 ≤ f := by rcases hf' with h | h <;> simp [h]
    have hf1 : f ≤ 1 := by rcases hf' with h | h <;> simp [h]
    obtain ⟨g0, g1⟩ := impulseStep_mem s f h0 h1 hf0 hf1
    exact ih (impulseStep s f) g0 g1 (fun x hx => hf x (List.mem_cons_of_mem f hx))

/-- C3: starting from the initial score 0 and applying the update
`impulse_score := 0.9 * impulse_score + 0.1 * flag` once per processed
transaction, the impulse score stays in [0, 1] after every update, for every
sequence of impulse flags each equal to 0 or 1. -/
theorem C3_impulse_score_bounded (flags : List ℚ)
    (h : ∀ f ∈ flags, f = 0 ∨ f = 1) :
    0 ≤ flags.foldl impulseStep 0 ∧ flags.foldl impulseStep 0 ≤ 1 :=
  impulse_foldl_mem flags 0 le_rfl zero_le_one h

/-- Witness for C3 at the concrete flag sequence [1, 0, 1]. -/
theorem C3_impulse_score_bounded_witness :
    0 ≤ ([1, 0, 1] : List ℚ).foldl impulseStep 0 ∧
      ([1, 0, 1] : List ℚ).foldl impulseStep 0 ≤ 1 :=
  C3_impulse_score_bounded [1, 0, 1] (by norm_num)

/-! Section: Lean-period detection (`LeanWeekPredictor.identify_lean_periods`) -/

/-- One historical cash-flow period as built by `get_monthly_cash_flow` /
`get_weekly_cash_flow`: a label (month or week key), income, expenses,
`net_flow = income - expenses`, and the day-of-month of the period's start
date when known. -/
structure Period where
  label : String
  income : ℚ
  expenses : ℚ
  net_flow : ℚ
  start_day : Option ℕ
deriving Repr, DecidableEq

/-- A detected lean period, mirroring the dict appended inside
`identify_lean_periods`. -/
structure LeanPeriod where
  label : String
  net_flow : ℚ
  income : ℚ
  expenses : ℚ
  severity : ℚ
  start_day : Option ℕ
deriving Repr, DecidableEq

/-- Result of `_detect_lean_pattern`. -/
structure PatternResult where
  has_pattern : Bool
  pattern_type : Option String
  description : String
deriving Repr, DecidableEq

/-- Result of `identify_lean_periods`. -/
structure LeanAnalysis where
  lean_periods : List LeanPeriod
  lean_frequency : ℚ
  avg_lean_severity : ℚ
  pattern_detected : PatternResult
  threshold : ℚ
deriving Repr, DecidableEq

/-- Severity as computed in the loop of `identify_lean_periods`:
`abs(net_flow) if net_flow < 0 else 0`. -/
def leanSeverity (net : ℚ) : ℚ := if net < 0 then |net| else 0

/-- The lean-period record built for a qualifying period. -/
def mkLeanPeriod (q : Period) : LeanPeriod :=
  { label := q.label, net_flow := q.net_flow, income := q.income,
    expenses := q.expenses, severity := leanSeverity q.net_flow,
    start_day := q.start_day }

/-- Threshold computation of `identify_lean_periods`: sort the net flows
ascending, take the entry at index `int(n * percentile)`, falling back to the
first (smallest) entry when that index is out of range. -/
def leanThreshold (hist : List Period) (pct : ℚ) : ℚ :=
  let sorted := List.insertionSort (fun a b => a ≤ b) (hist.map (fun q => q.net_flow))
  sorted.getD ((Int.floor ((sorted.length : ℚ) * pct)).toNat) (sorted.headD 0)

/-- The `_detect_lean_pattern` heuristic.  The Python comparison
`sqrt(variance_of_days) < 7` is encoded equivalently as `variance < 49`
(squaring is monotone on nonnegatives). -/
def detectLeanPattern (lps : List LeanPeriod) : PatternResult :=
  if lps.length < 3 then
    { has_pattern := false, pattern_type := none, description := "Insufficient data" }
  else if lps.all (fun q => q.start_day.isSome) then
    let days : List ℚ := lps.map (fun q => ((q.start_day.getD 0 : ℕ) : ℚ))
    let avg_day := days.sum / (days.length : ℚ)
    let day_var := (days.map (fun d => (d - avg_day) ^ 2)).sum / (days.length : ℚ)
    if day_var < 49 then
      if 1 ≤ avg_day ∧ avg_day ≤ 7 then
        { has_pattern := true, pattern_type := some "month_start",
          description := "Lean periods typically occur at the beginning of the month" }
      else if 23 ≤ avg_day ∧ avg_day ≤ 31 then
        { has_pattern := true, pattern_type := some "month_end",
          description := "Lean periods typically occur at the end of the month" }
      else
        { has_pattern := false, pattern_type := none,
          description := "No clear pattern detected" }
    else
      { has_pattern := false, pattern_type := none,
        description := "No clear pattern detected" }
  else
    { has_pattern := false, pattern_type := none,
      description := "No clear pattern detected" }

/-- Function `LeanWeekPredictor.identify_lean_periods`: threshold at the requested
percentile of sorted net flows, periods at or below it marked lean (in input
order, via the appending loop), lean frequency and average severity. -/
def identify_lean_periods (hist : List Period) (pct : ℚ) : LeanAnalysis :=
  if hist.isEmpty then
    { lean_periods := [], lean_frequency := 0, avg_lean_severity := 0,
      pattern_detected := { has_pattern := false, pattern_type := none,
                            description := "No data available" },
      threshold := 0 }
  else
    let threshold := leanThreshold hist pct
    let lps := hist.foldl
      (fun acc q => if q.net_flow ≤ threshold then acc ++ [mkLeanPeriod q] else acc) []
    let lean_frequency := (lps.length : ℚ) / (hist.length : ℚ)
    let avg_severity :=
      if lps.isEmpty then 0
      else (lps.map (fun q => q.severity)).sum / (lps.length : ℚ)
    { lean_periods := lps, lean_frequency := lean_frequency,
      avg_lean_severity := avg_severity,
      pattern_detected := detectLeanPattern lps, threshold := threshold }

theorem foldl_ite_append {α β : Type} (cond : α → Prop) [DecidablePred cond] (f : α → β) :
    ∀ (l : List α) (acc : List β),
      l.foldl (fun a x => if cond x then a ++ [f x] else a) acc
        = acc ++ (l.filter (fun x => decide (cond x))).map f := by
  intro l
  induction l with
  | nil => intro acc; simp
  | cons x t ih =>
    intro acc
    by_cases h : cond x <;> simp [h, ih, List.filter_cons]

theorem leanSeverity_eq (x : ℚ) : leanSeverity x = max 0 (-x) := by
  unfold leanSeverity
  rcases lt_or_le x 0 with h | h
  · rw [if_pos h, abs_of_neg h, max_eq_right (by linarith : (0 : ℚ) ≤ -x)]
  · rw [if_neg (not_lt.mpr h), max_eq_left (by linarith : -x ≤ (0 : ℚ))]

/-- The six-month example history from the spec: net flows
[500, -200, 300, -600, 100, 50]. -/
def exHist : List Period :=
  [{ label := "m1", income := 500, expenses := 0, net_flow := 500, start_day := none },
   { label := "m2", income := 0, expenses := 200, net_flow := -200, start_day := none },
   { label := "m3", income := 300, expenses := 0, net_flow := 300, start_day := none },
   { label := "m4", income := 0, expenses := 600, net_flow := -600, start_day := none },
   { label := "m5", income := 100, expenses := 0, net_flow := 100, start_day := none },
   { label := "m6", income := 50, expenses := 0, net_flow := 50, start_day := none }]

/-- C6: for a nonempty history whose threshold index `int(n * p)` is in range,
`identify_lean_periods` takes the threshold from the ascending sort of the net
flows at that index (the sort really is an ascending sorted permutation),
marks exactly the periods with `net_flow ≤ threshold` as lean (in input
order), gives each lean period severity `max 0 (-net_flow)`, and returns
`lean_frequency` = (number of lean periods) / n.  On the example flows
[500, -200, 300, -600, 100, 50] with p = 1/4 the threshold is -200, the lean
periods are the ones with flows -200 and -600, and the frequency is 2/6. -/
theorem C6_lean_period_detection (hist : List Period) (p : ℚ) (hne : hist ≠ [])
    (hidx : (Int.floor ((hist.length : ℚ) * p)).toNat < hist.length) :
    (identify_lean_periods hist p).threshold
      = (List.insertionSort (fun a b => a ≤ b) (hist.map (fun q => q.net_flow))).getD
          ((Int.floor ((hist.length : ℚ) * p)).toNat) 0 ∧
    List.Sorted (· ≤ ·)
      (List.insertionSort (fun a b => a ≤ b) (hist.map (fun q => q.net_flow))) ∧
    (List.insertionSort (fun a b => a ≤ b) (hist.map (fun q => q.net_flow))).Perm
      (hist.map (fun q => q.net_flow)) ∧
    (identify_lean_periods hist p).lean_periods
      = (hist.filter
          (fun q => q.net_flow ≤ (identify_lean_periods hist p).threshold)).map mkLeanPeriod ∧
    (∀ q ∈ (identify_lean_periods hist p).lean_periods,
        q.severity = max 0 (-q.net_flow)) ∧
    (identify_lean_periods hist p).lean_frequency
      = ((hist.filter
            (fun q => q.net_flow ≤ (identify_lean_periods hist p).threshold)).length : ℚ)
          / (hist.length : ℚ) ∧
    (identify_lean_periods exHist (1 / 4)).threshold = -200 ∧
    (identify_lean_periods exHist (1 / 4)).lean_periods.map (fun q => q.net_flow)
      = [-200, -600] ∧
    (identify_lean_periods exHist (1 / 4)).lean_frequency = 2 / 6 := by
  have hne' : hist.isEmpty = false := by simp [List.isEmpty_iff, hne]
  have hlen : (List.insertionSort (fun a b => a ≤ b)
      (hist.map (fun q => q.net_flow))).length = hist.length := by
    rw [(List.perm_insertionSort (fun a b => a ≤ b)
      (hist.map (fun q => q.net_flow))).length_eq, List.length_map]
  have hthr : (identify_lean_periods hist p).threshold = leanThreshold hist p := by
    simp [identify_lean_periods, hne']
  have hlps : (identify_lean_periods hist p).lean_periods
      = (hist.filter (fun q => decide (q.net_flow ≤ leanThreshold hist p))).map
          mkLeanPeriod := by
    simp only [identify_lean_periods, hne', Bool.false_eq_true, if_false]
    rw [foldl_ite_append (fun q => q.net_flow ≤ leanThreshold hist p) mkLeanPeriod hist []]
    simp
  refine ⟨?_, ?_, ?_, ?_, ?_, ?_, ?_, ?_, ?_⟩
  · rw [hthr]
    simp only [leanThreshold, hlen]
    have h1 : (Int.floor ((hist.length : ℚ) * p)).toNat
        < (List.insertionSort (fun a b => a ≤ b) (hist.map (fun q => q.net_flow))).length := by
      rw [hlen]; exact hidx
    rw [List.getD_eq_getElem _ _ h1, List.getD_eq_getElem _ _ h1]
  · exact List.sorted_insertionSort _ _
  · exact List.perm_insertionSort _ _
  · rw [hlps, hthr]
  · intro q hq
    rw [hlps] at hq
    obtain ⟨q0, hq0, rfl⟩ := List.mem_map.1 hq
    simp [mkLeanPeriod, leanSeverity_eq]
  · have : (identify_lean_periods hist p).lean_frequency
        = (((identify_lean_periods hist p).lean_periods.length : ℚ)) / (hist.length : ℚ) := by
      simp [identify_lean_periods, hne']
    rw [this, hlps, hthr]
    simp
  · norm_num [identify_lean_periods, exHist, leanThreshold, List.insertionSort,
      List.orderedInsert, List.getD]
  · norm_num [identify_lean_periods, exHist, leanThreshold, List.insertionSort,
      List.orderedInsert, List.getD, mkLeanPeriod, leanSeverity]
  · norm_num [identify_lean_periods, exHist, leanThreshold, List.insertionSort,
      List.orderedInsert, List.getD, mkLeanPeriod, leanSeverity]

/-- Witness for C6 at the concrete example history with percentile 1/4. -/
theorem C6_lean_period_detection_witness :
    (identify_lean_periods exHist (1 / 4)).lean_frequency = 2 / 6 :=
  (C6_lean_period_detection exHist (1 / 4) (by simp [exHist])
    (by norm_num [exHist])).2.2.2.2.2.2.2.2

/-! Section: The behavior model and `BehaviorEngine.update_model` -/

/-- The parts of a transaction timestamp the engine reads: hour of day,
weekday, and an absolute day index used for income payment-gap tracking. -/
structure Timestamp where
  hour : ℕ
  weekday : ℕ
  dayIndex : ℤ
deriving Repr, DecidableEq

/-- A transaction as consumed by `BehaviorEngine.update_model`.  A missing
merchant is modelled as the empty string (falsy in Python). -/
structure Transaction where
  amount : ℚ
  type : String
  merchant : String
  rawMessage : String
  category : Option String
  timestamp : Option Timestamp
deriving Repr, DecidableEq

/-- Per-source income record (`income_stats['sources'][source]`). -/
structure SourceEntry where
  count : ℕ
  total : ℚ
  type : String
deriving Repr, DecidableEq

/-- Per-source record inside a business/personal income bucket. -/
structure BucketSource where
  count : ℕ
  total : ℚ
deriving Repr, DecidableEq

/-- A business or personal income sub-bucket. -/
structure IncomeBucket where
  count : ℕ
  sum : ℚ
  mean : ℚ
  sources : List (String × BucketSource)
deriving Repr, DecidableEq

/-- The `monthly_patterns['income_stats']` structure: Welford moments over
credit amounts plus the income-specific extras. -/
structure IncomeStats where
  stats : WelfordStats
  sources : List (String × SourceEntry)
  last_income_date : Option ℤ
  income_frequency_days : List ℤ
  business_income : IncomeBucket
  personal_income : IncomeBucket
  volatility_coefficient : ℚ
deriving Repr, DecidableEq

/-- The per-user behavior model row.  The Python JSON dicts `category_stats`,
`elasticity` and `baselines` are modelled as association lists; the lazily
created `habits` sub-dicts and `monthly_patterns['income_stats']` entry are
options.  `last_updated` is an abstract clock value supplied by the caller. -/
structure BehaviourModel where
  category_stats : List (String × WelfordStats)
  elasticity : List (String × ℚ)
  baselines : List (String × ℚ)
  impulse_score : ℚ
  habits_hourly : Option (List ℕ)
  habits_weekly : Option (List ℕ)
  income_stats : Option IncomeStats
  transaction_count : ℕ
  last_updated : ℕ
deriving Repr, DecidableEq

/-- Dict-style insert-or-replace on an association list. -/
def alSet {α : Type} (l : List (String × α)) (k : String) (v : α) : List (String × α) :=
  match l with
  | [] => [(k, v)]
  | (k', v') :: t => if k' = k then (k, v) :: t else (k', v') :: alSet t k v

/-- Business-income keyword vocabulary from `_update_income_stats`. -/
def business_keywords : List String :=
  ["client", "project", "upwork", "fiverr", "freelance",
   "consulting", "contractor", "gig", "invoice", "payment for"]

/-- Personal-income keyword vocabulary from `_update_income_stats`. -/
def personal_keywords : List String :=
  ["gift", "refund", "cashback", "bonus", "salary",
   "payroll", "dividend", "interest", "tax refund"]

/-- Whether `needle` matches `hay` starting at its head. -/
def matchesAt : List Char → List Char → Bool
  | [], _ => true
  | _ :: _, [] => false
  | n :: ns, h :: hs => n == h && matchesAt ns hs

/-- Whether `needle` occurs contiguously anywhere in `hay`
(the Python `needle in hay` substring test). -/
def occursIn (needle : List Char) : List Char → Bool
  | [] => needle.isEmpty
  | h :: t => matchesAt needle (h :: t) || occursIn needle t

/-- Substring test on strings. -/
def strOccurs (needle hay : String) : Bool := occursIn needle.data hay.data

/-- Python `transaction.merchant or "Unknown Source"`. -/
def sourceString (tx : Transaction) : String :=
  if tx.merchant = "" then "Unknown Source" else tx.merchant

/-- Whether some business keyword occurs in the lowercased source or raw
message. -/
def isBusinessIncome (tx : Transaction) : Bool :=
  business_keywords.any
    (fun kw => strOccurs kw (sourceString tx).toLower || strOccurs kw tx.rawMessage.toLower)

/-- Whether some personal keyword occurs in the lowercased source or raw
message. -/
def isPersonalIncome (tx : Transaction) : Bool :=
  personal_keywords.any
    (fun kw => strOccurs kw (sourceString tx).toLower || strOccurs kw tx.rawMessage.toLower)

/-- Income classification from `_update_income_stats`:
`"business" if is_business_income and not is_personal_income else "personal"`. -/
def incomeType (tx : Transaction) : String :=
  if isBusinessIncome tx && !(isPersonalIncome tx) then "business" else "personal"

/-- Fresh income stats created for a user's first credit transaction. -/
def initIncomeStats (amount : ℚ) : IncomeStats :=
  { stats := initialStats amount, sources := [], last_income_date := none,
    income_frequency_days := [],
    business_income := { count := 0, sum := 0, mean := 0, sources := [] },
    personal_income := { count := 0, sum := 0, mean := 0, sources := [] },
    volatility_coefficient := 0 }

/-- Update of the matching business/personal income bucket. -/
def updateBucket (b : IncomeBucket) (source : String) (amount : ℚ) : IncomeBucket :=
  let c := b.count + 1
  let s := b.sum + amount
  let e := (List.lookup source b.sources).getD { count := 0, total := 0 }
  { count := c, sum := s, mean := s / (c : ℚ),
    sources := alSet b.sources source { count := e.count + 1, total := e.total + amount } }

/-- Update of the per-source income map; a new source records the income type
it first arrived with. -/
def updateSources (sources : List (String × SourceEntry)) (source : String)
    (amount : ℚ) (itype : String) : List (String × SourceEntry) :=
  let e := (List.lookup source sources).getD { count := 0, total := 0, type := itype }
  alSet sources source { count := e.count + 1, total := e.total + amount, type := e.type }

/-- Keep only the last `n` entries of a list (Python `l[-n:]`). -/
def takeLast (n : ℕ) (l : List ℤ) : List ℤ := l.drop (l.length - n)

/-- The income pathway `BehaviorEngine._update_income_stats`: Welford update
of the aggregate income stats (extras preserved), per-source counting, the
matching business/personal bucket, payment-gap tracking capped to 20 entries,
and the volatility coefficient; increments `transaction_count` and touches
`last_updated`. -/
def update_income_stats (sq : ℚ → ℚ) (now : ℕ)
    (m : BehaviourModel) (tx : Transaction) : BehaviourModel :=
  let amount := tx.amount
  let source := sourceString tx
  let itype := incomeType tx
  let ist := m.income_stats.getD (initIncomeStats amount)
  let stats1 := update_welford_stats sq ist.stats amount
  let sources1 := updateSources ist.sources source amount itype
  let bus1 := if itype = "business" then updateBucket ist.business_income source amount
              else ist.business_income
  let per1 := if itype = "personal" then updateBucket ist.personal_income source amount
              else ist.personal_income
  let gap :=
    match tx.timestamp with
    | none => (ist.income_frequency_days, ist.last_income_date)
    | some ts =>
      match ist.last_income_date with
      | none => (ist.income_frequency_days, some ts.dayIndex)
      | some d =>
        (takeLast 20 (ist.income_frequency_days ++ [ts.dayIndex - d]), some ts.dayIndex)
  let vol := if stats1.mean > 0 then stats1.std_dev / stats1.mean else 0
  { m with
    income_stats := some
      { stats := stats1, sources := sources1, last_income_date := gap.snd,
        income_frequency_days := gap.fst, business_income := bus1,
        personal_income := per1, volatility_coefficient := vol },
    transaction_count := m.transaction_count + 1,
    last_updated := now }

/-- Modelled from the spec: `StatisticsService.detect_impulse` is not in the
repository snapshot; per the spec the flag is 1 when the amount exceeds the
category mean plus a fixed multiple k of the standard deviation (k taken as
2 here), else 0.  No theorem depends on the choice of k. -/
def detect_impulse (tx : Transaction) (s : WelfordStats) : ℚ :=
  if tx.amount > s.mean + 2 * s.std_dev then 1 else 0

/-- Modelled from the spec: `StatisticsService.calculate_elasticity` is not in
the repository snapshot; per the spec it is a flexibility score increasing in
the variance-to-mean ratio (taken here as variance/mean when the mean is
positive, else 0).  No theorem depends on the formula. -/
def calculate_elasticity (_category : String) (s : WelfordStats) : ℚ :=
  if s.mean > 0 then s.variance / s.mean else 0

/-- Category resolution in the debit pathway: a missing (or empty, hence
falsy) category is filled in by the categorizer collaborator. -/
def resolvedCategory (categorize : String → ℚ → String → String)
    (tx : Transaction) : String :=
  match tx.category with
  | none => categorize tx.merchant tx.amount tx.rawMessage
  | some c => if c = "" then categorize tx.merchant tx.amount tx.rawMessage else c

/-- New category stats after one debit: decay-then-update when the category
already has stats, otherwise a fresh record updated with the amount. -/
def newCatStats (sq : ℚ → ℚ) (decayFactor : ℚ) (m : BehaviourModel)
    (c : String) (amount : ℚ) : WelfordStats :=
  match List.lookup c m.category_stats with
  | some s => update_welford_stats sq (apply_time_decay s decayFactor) amount
  | none => update_welford_stats sq (initialStats amount) amount

/-- Candidate baseline `max(0, mean - 1.5 * std_dev)`. -/
def baselineCandidate (s : WelfordStats) : ℚ := max 0 (s.mean - 3 / 2 * s.std_dev)

/-- Stored baseline after one debit: the candidate when no prior value exists,
otherwise the minimum of the prior value and the candidate. -/
def baselineNext (prior : Option ℚ) (s : WelfordStats) : ℚ :=
  match prior with
  | none => baselineCandidate s
  | some b => min b (baselineCandidate s)

/-- Method `BehaviorEngine.update_model` for an existing model: credit transactions
take the income pathway, non-debit/non-credit types leave the model unchanged,
and debits run the categorize / decay / Welford / elasticity / baseline /
impulse / habits pipeline.  `sq` is the abstract square root, `decayFactor`
the `DECAY_FACTOR` constant (its module is not in the snapshot), `categorize`
the categorizer collaborator and `now` the current clock value. -/
def update_model (sq : ℚ → ℚ) (decayFactor : ℚ)
    (categorize : String → ℚ → String → String) (now : ℕ)
    (m : BehaviourModel) (tx : Transaction) : BehaviourModel :=
  if tx.type = "credit" then update_income_stats sq now m tx
  else if tx.type ≠ "debit" then m
  else
    let category := resolvedCategory categorize tx
    let stats1 := newCatStats sq decayFactor m category tx.amount
    let habits :=
      match tx.timestamp with
      | none => (m.habits_hourly, m.habits_weekly)
      | some ts =>
        let h0 := m.habits_hourly.getD (List.replicate 24 0)
        let w0 := m.habits_weekly.getD (List.replicate 7 0)
        (some (h0.set ts.hour (h0.getD ts.hour 0 + 1)),
         some (w0.set ts.weekday (w0.getD ts.weekday 0 + 1)))
    { category_stats := alSet m.category_stats category stats1
      elasticity := alSet m.elasticity category (calculate_elasticity category stats1)
      baselines := alSet m.baselines category
        (baselineNext (List.lookup category m.baselines) stats1)
      impulse_score := impulseStep m.impulse_score (detect_impulse tx stats1)
      habits_hourly := habits.fst
      habits_weekly := habits.snd
      income_stats := m.income_stats
      transaction_count := m.transaction_count + 1
      last_updated := now }

/-- Processing a sequence of transactions one at a time. -/
def runUpdates (sq : ℚ → ℚ) (decayFactor : ℚ)
    (categorize : String → ℚ → String → String) (now : ℕ)
    (m : BehaviourModel) (txs : List Transaction) : BehaviourModel :=
  txs.foldl (update_model sq decayFactor categorize now) m

theorem lookup_alSet_self {α : Type} (l : List (String × α)) (k : String) (v : α) :
    List.lookup k (alSet l k v) = some v := by
  induction l with
  | nil => simp [alSet, List.lookup]
  | cons e t ih =>
    obtain ⟨k', v'⟩ := e
    by_cases h : k' = k
    · subst h; simp [alSet, List.lookup]
    · have hb : (k == k') = false := beq_eq_false_iff_ne.mpr (Ne.symm h)
      simp [alSet, h, List.lookup, hb, ih]

theorem lookup_alSet_ne {α : Type} (l : List (String × α)) (k k' : String) (v : α)
    (h : k ≠ k') :
    List.lookup k' (alSet l k v) = List.lookup k' l := by
  have hb : (k' == k) = false := beq_eq_false_iff_ne.mpr (Ne.symm h)
  induction l with
  | nil => simp [alSet, List.lookup, hb]
  | cons e t ih =>
    obtain ⟨k0, v0⟩ := e
    by_cases h0 : k0 = k
    · subst h0; simp [alSet, List.lookup, hb]
    · simp [alSet, h0, List.lookup, ih]

/-! Section: C8: business vs personal income classification -/

theorem anyKeyword_iff (kws : List String) (s r : String) :
    kws.any (fun kw => strOccurs kw s || strOccurs kw r) = true ↔
      ∃ kw ∈ kws, strOccurs kw s = true ∨ strOccurs kw r = true := by
  simp [List.any_eq_true]

/-- C8: a credit transaction is classified as business income if and only if
some business keyword occurs as a substring of the lowercased source string
(merchant, or the fallback source name when the merchant is empty) or of the
lowercased raw message, and no personal keyword occurs in either; in every
other case it is classified as personal income. -/
theorem C8_income_classification (tx : Transaction) :
    (incomeType tx = "business" ↔
      ((∃ kw ∈ business_keywords,
          strOccurs kw (sourceString tx).toLower = true ∨
            strOccurs kw tx.rawMessage.toLower = true) ∧
        ¬ ∃ kw ∈ personal_keywords,
            strOccurs kw (sourceString tx).toLower = true ∨
              strOccurs kw tx.rawMessage.toLower = true)) ∧
    (incomeType tx = "business" ∨ incomeType tx = "personal") := by
  have hb : isBusinessIncome tx = true ↔
      ∃ kw ∈ business_keywords,
        strOccurs kw (sourceString tx).toLower = true ∨
          strOccurs kw tx.rawMessage.toLower = true := by
    unfold isBusinessIncome
    exact anyKeyword_iff business_keywords (sourceString tx).toLower tx.rawMessage.toLower
  have hp : isPersonalIncome tx = true ↔
      ∃ kw ∈ personal_keywords,
        strOccurs kw (sourceString tx).toLower = true ∨
          strOccurs kw tx.rawMessage.toLower = true := by
    unfold isPersonalIncome
    exact anyKeyword_iff personal_keywords (sourceString tx).toLower tx.rawMessage.toLower
  have key : incomeType tx = "business" ↔
      (isBusinessIncome tx = true ∧ isPersonalIncome tx = false) := by
    unfold incomeType
    cases hB : isBusinessIncome tx <;> cases hP : isPersonalIncome tx <;> simp
  have hpneg : isPersonalIncome tx = false ↔
      ¬ ∃ kw ∈ personal_keywords,
        strOccurs kw (sourceString tx).toLower = true ∨
          strOccurs kw tx.rawMessage.toLower = true := by
    rw [← hp]
    cases isPersonalIncome tx <;> simp
  constructor
  · rw [key, hb, hpneg]
  · unfold incomeType
    split <;> simp

/-- Witness for C8 at a concrete business-income transaction. -/
theorem C8_income_classification_witness :
    incomeType { amount := 1500, type := "credit", merchant := "Upwork Project",
                 rawMessage := "", category := none, timestamp := none }
        = "business" ∨
      incomeType { amount := 1500, type := "credit", merchant := "Upwork Project",
                   rawMessage := "", category := none, timestamp := none }
        = "personal" :=
  (C8_income_classification _).2

/-! Section: C9: the income pathway only touches income stats, count and clock -/

/-- C9: for a credit transaction, `update_model` leaves `category_stats`,
`elasticity`, `baselines`, `impulse_score` and both habit histograms
unchanged; it increments `transaction_count` by one, sets `last_updated`, and
(re)writes the income-stats structure inside `monthly_patterns`. -/
theorem C9_credit_frame (sq : ℚ → ℚ) (dF : ℚ)
    (categorize : String → ℚ → String → String) (now : ℕ)
    (m : BehaviourModel) (tx : Transaction) (h : tx.type = "credit") :
    (update_model sq dF categorize now m tx).category_stats = m.category_stats ∧
    (update_model sq dF categorize now m tx).elasticity = m.elasticity ∧
    (update_model sq dF categorize now m tx).baselines = m.baselines ∧
    (update_model sq dF categorize now m tx).impulse_score = m.impulse_score ∧
    (update_model sq dF categorize now m tx).habits_hourly = m.habits_hourly ∧
    (update_model sq dF categorize now m tx).habits_weekly = m.habits_weekly ∧
    (update_model sq dF categorize now m tx).transaction_count
      = m.transaction_count + 1 ∧
    (update_model sq dF categorize now m tx).last_updated = now ∧
    ((update_model sq dF categorize now m tx).income_stats).isSome = true := by
  simp [update_model, h, update_income_stats]

/-- Example model with one existing baseline, used by concrete witnesses. -/
def exModel : BehaviourModel :=
  { category_stats := [], elasticity := [], baselines := [("DINING", 100)],
    impulse_score := 0, habits_hourly := none, habits_weekly := none,
    income_stats := none, transaction_count := 0, last_updated := 0 }

/-- Example credit transaction. -/
def exCreditTx : Transaction :=
  { amount := 3500, type := "credit", merchant := "Client A - Web Design",
    rawMessage := "", category := some "INCOME",
    timestamp := some { hour := 10, weekday := 2, dayIndex := 100 } }

/-- Example debit transaction in the DINING category. -/
def exDebitTx : Transaction :=
  { amount := 50, type := "debit", merchant := "Cafe", rawMessage := "",
    category := some "DINING", timestamp := none }

/-- Witness for C9 at a concrete model and credit transaction. -/
theorem C9_credit_frame_witness :
    (update_model (fun q => q) (19 / 20) (fun _ _ _ => "OTHER") 5
        exModel exCreditTx).baselines = exModel.baselines :=
  (C9_credit_frame (fun q => q) (19 / 20) (fun _ _ _ => "OTHER") 5
    exModel exCreditTx rfl).2.2.1

/-! Section: C2: baselines only ever tighten downward -/

theorem update_model_baseline_mono (sq : ℚ → ℚ) (dF : ℚ)
    (categorize : String → ℚ → String → String) (now : ℕ)
    (m : BehaviourModel) (tx : Transaction) (c : String) (b : ℚ)
    (h : List.lookup c m.baselines = some b) :
    ∃ b', List.lookup c (update_model sq dF categorize now m tx).baselines = some b'
      ∧ b' ≤ b := by
  by_cases hcr : tx.type = "credit"
  · exact ⟨b, by simp [update_model, hcr, update_income_stats, h], le_rfl⟩
  · by_cases hdb : tx.type = "debit"
    · have hnn : ¬ tx.type ≠ "debit" := fun hne => hne hdb
      by_cases hc : resolvedCategory categorize tx = c
      · subst hc
        refine ⟨baselineNext
            (List.lookup (resolvedCategory categorize tx) m.baselines)
            (newCatStats sq dF m (resolvedCategory categorize tx) tx.amount), ?_, ?_⟩
        · simp only [update_model]
          rw [if_neg hcr, if_neg hnn]
          exact lookup_alSet_self _ _ _
        · rw [h]
          exact min_le_left _ _
      · refine ⟨b, ?_, le_rfl⟩
        simp only [update_model]
        rw [if_neg hcr, if_neg hnn]
        rw [lookup_alSet_ne _ _ _ _ hc]
        exact h
    · exact ⟨b, by simp [update_model, hcr, hdb, h], le_rfl⟩

theorem runUpdates_baseline_mono (sq : ℚ → ℚ) (dF : ℚ)
    (categorize : String → ℚ → String → String) (now : ℕ) :
    ∀ (txs : List Transaction) (m : BehaviourModel) (c : String) (b : ℚ),
      List.lookup c m.baselines = some b →
      ∃ b', List.lookup c (runUpdates sq dF categorize now m txs).baselines = some b'
        ∧ b' ≤ b := by
  intro txs
  induction txs with
  | nil => intro m c b h; exact ⟨b, h, le_rfl⟩
  | cons tx t ih =>
    intro m c b h
    obtain ⟨b1, h1, hle1⟩ := update_model_baseline_mono sq dF categorize now m tx c b h
    obtain ⟨b', h', hle'⟩ := ih (update_model sq dF categorize now m tx) c b1 h1
    exact ⟨b', h', le_trans hle' hle1⟩

/-- C2: over any sequence of processed transactions the stored baseline of a
category never rises: if the model currently stores baseline `b` for a
category, then after processing any further transaction sequence it stores
some `b' ≤ b`.  On each debit update the newly stored value is the candidate
`max(0, mean - 1.5 * std_dev)` when no prior value exists and otherwise
`min(prior, candidate)`, which never exceeds the prior value. -/
theorem C2_baselines_monotone (sq : ℚ → ℚ) (dF : ℚ)
    (categorize : String → ℚ → String → String) (now : ℕ)
    (m : BehaviourModel) (txs : List Transaction) (tx : Transaction)
    (c : String) (b : ℚ) :
    (List.lookup c m.baselines = some b →
      ∃ b', List.lookup c (runUpdates sq dF categorize now m txs).baselines = some b'
        ∧ b' ≤ b) ∧
    (tx.type = "debit" → resolvedCategory categorize tx = c →
      List.lookup c (update_model sq dF categorize now m tx).baselines
        = some (baselineNext (List.lookup c m.baselines)
            (newCatStats sq dF m c tx.amount))) ∧
    (∀ s, baselineNext none s = max 0 (s.mean - 3 / 2 * s.std_dev)) ∧
    (∀ b0 s, baselineNext (some b0) s = min b0 (max 0 (s.mean - 3 / 2 * s.std_dev)) ∧
      baselineNext (some b0) s ≤ b0) := by
  refine ⟨fun h => runUpdates_baseline_mono sq dF categorize now txs m c b h,
    ?_, fun s => rfl, fun b0 s => ⟨rfl, min_le_left _ _⟩⟩
  intro hdb hc
  subst hc
  have hcr : ¬ tx.type = "credit" := by rw [hdb]; simp
  have hnn : ¬ tx.type ≠ "debit" := fun hne => hne hdb
  simp only [update_model]
  rw [if_neg hcr, if_neg hnn]
  exact lookup_alSet_self _ _ _

/-- Witness for C2 at a concrete model with a stored DINING baseline of 100
and one debit transaction. -/
theorem C2_baselines_monotone_witness :
    ∃ b', List.lookup "DINING"
        (runUpdates (fun q => q) (19 / 20) (fun _ _ _ => "OTHER") 7
          exModel [exDebitTx]).baselines = some b' ∧ b' ≤ 100 :=
  (C2_baselines_monotone (fun q => q) (19 / 20) (fun _ _ _ => "OTHER") 7
    exModel [exDebitTx] exDebitTx "DINING" 100).1 (by decide)

/-! Section: C5: spending-scenario simulation (modelled from the spec) -/

/-- Modelled from the spec: the scenario implementation module
(`app/services/simulations/scenario.py`) is not in the repository snapshot —
only the `SimulationService.simulate_spending_scenario` wrapper is.  One
relevant category with its monthly mean spend (already scaled to a 30-day
month) and its elasticity score. -/
structure CategoryInput where
  name : String
  monthly_spend : ℚ
  elasticity : ℚ
deriving Repr, DecidableEq

/-- Modelled from the spec: the elasticity-derived maximum percentage a
category allows — low elasticity caps below the requested target, elasticity
at or above 1 allows the full 100 percent. -/
def elasticityCapPct (e : ℚ) : ℚ := 100 * min 1 (max 0 e)

/-- Modelled from the spec: per-category achievable percentage, the requested
target capped by the category's elasticity. -/
def achievablePct (target e : ℚ) : ℚ := min target (elasticityCapPct e)

/-- Scenario simulation output fields relevant here. -/
structure ScenarioResult where
  baseline_monthly : ℚ
  achievable_percent : ℚ
  projected_monthly : ℚ
  total_change : ℚ
  annual_impact : ℚ
deriving Repr, DecidableEq

/-- Modelled from the spec (section 4.5): `baseline_monthly` is the sum of the
per-category monthly spends over the relevant category set;
`achievable_percent` is the spend-weighted average of the per-category
achievable percentages; `projected_monthly` applies the achievable percentage
in the requested direction; `total_change` and `annual_impact` follow. -/
def simulate_spending_scenario (cats : List CategoryInput)
    (scenario_type : String) (target_percent : ℚ) : ScenarioResult :=
  let baseline := (cats.map (fun c => c.monthly_spend)).sum
  let weighted :=
    (cats.map (fun c => c.monthly_spend * achievablePct target_percent c.elasticity)).sum
  let achievable := if baseline = 0 then 0 else weighted / baseline
  let projected := if scenario_type = "reduction" then baseline * (1 - achievable / 100)
                   else baseline * (1 + achievable / 100)
  { baseline_monthly := baseline, achievable_percent := achievable,
    projected_monthly := projected, total_change := projected - baseline,
    annual_impact := (projected - baseline) * 12 }

theorem sum_map_mul_const (cats : List CategoryInput) (target : ℚ) :
    (cats.map (fun c => c.monthly_spend * target)).sum
      = target * (cats.map (fun c => c.monthly_spend)).sum := by
  induction cats with
  | nil => simp
  | cons c t ih => simp only [List.map_cons, List.sum_cons, ih]; ring

/-- C5: for every successful scenario simulation with a positive requested
target percentage and nonnegative per-category spends, the returned
`achievable_percent` never exceeds the requested `target_percent`. -/
theorem C5_achievable_le_target (cats : List CategoryInput) (stype : String)
    (target : ℚ) (htarget : 0 < target)
    (hspend : ∀ c ∈ cats, 0 ≤ c.monthly_spend) :
    (simulate_spending_scenario cats stype target).achievable_percent ≤ target := by
  have hval : (simulate_spending_scenario cats stype target).achievable_percent
      = (if (cats.map (fun c => c.monthly_spend)).sum = 0 then (0 : ℚ)
         else (cats.map
              (fun c => c.monthly_spend * achievablePct target c.elasticity)).sum
            / (cats.map (fun c => c.monthly_spend)).sum) := rfl
  rw [hval]
  by_cases hb : (cats.map (fun c => c.monthly_spend)).sum = 0
  · rw [if_pos hb]
    exact le_of_lt htarget
  · rw [if_neg hb]
    have hnn : 0 ≤ (cats.map (fun c => c.monthly_spend)).sum := by
      apply List.sum_nonneg
      intro x hx
      obtain ⟨c, hc, rfl⟩ := List.mem_map.1 hx
      exact hspend c hc
    have hpos : 0 < (cats.map (fun c => c.monthly_spend)).sum :=
      lt_of_le_of_ne hnn (Ne.symm hb)
    rw [div_le_iff₀ hpos]
    have hle : (cats.map
        (fun c => c.monthly_spend * achievablePct target c.elasticity)).sum
        ≤ (cats.map (fun c => c.monthly_spend * target)).sum := by
      apply List.sum_le_sum
      intro c hc
      exact mul_le_mul_of_nonneg_left (min_le_left _ _) (hspend c hc)
    calc (cats.map (fun c => c.monthly_spend * achievablePct target c.elasticity)).sum
        ≤ (cats.map (fun c => c.monthly_spend * target)).sum := hle
      _ = target * (cats.map (fun c => c.monthly_spend)).sum :=
          sum_map_mul_const cats target

/-- Witness for C5 at a single-category request. -/
theorem C5_achievable_le_target_witness :
    (simulate_spending_scenario
        [{ name := "DINING", monthly_spend := 500, elasticity := 2 }]
        "reduction" 20).achievable_percent ≤ 20 :=
  C5_achievable_le_target
    [{ name := "DINING", monthly_spend := 500, elasticity := 2 }]
    "reduction" 20 (by norm_num) (by decide)

/-! Section: Cash-flow forecasting (`LeanWeekPredictor.forecast_cash_flow`) -/

/-- One month of historical cash-flow aggregates consumed by
`forecast_cash_flow`.  The engine obtains these from `get_monthly_cash_flow`
(storage collaborator); they are taken here as the input list. -/
structure MonthRecord where
  income : ℚ
  expenses : ℚ
deriving Repr, DecidableEq

/-- Best / likely / worst values of one forecast quantity. -/
structure ScenarioBand where
  best : ℚ
  likely : ℚ
  worst : ℚ
deriving Repr, DecidableEq

/-- One forecast period dict from `forecast_cash_flow`. -/
structure ForecastPeriod where
  period : ℕ
  income : ScenarioBand
  expenses : ScenarioBand
  net_cash_flow : ScenarioBand
  projected_balance : ScenarioBand
  is_lean_period : Bool
  balance_at_risk : Bool
  daily_budget : ℚ
  daily_ideal_spend : ScenarioBand
deriving Repr, DecidableEq

/-- The `forecast_cash_flow` result dict.  In the insufficient-history branch
the Python dict carries no `recommended_daily_spend` key, modelled as
`none`. -/
structure ForecastResult where
  recommended_daily_spend : Option ℚ
  forecasts : List ForecastPeriod
  warnings : List String
  confidence : ℚ
  income_volatility : ℚ
  avg_monthly_income : ℚ
  avg_monthly_expenses : ℚ
deriving Repr, DecidableEq

/-- One iteration of the forecast loop, given the smoothed income forecast
`F`, the income volatility, the historical average monthly expenses, and the
running balance entering the period.  The Python `round(x, 2)` applied when
the period dict is serialised is presentation-only and omitted; the lean and
balance-risk flags are computed on the unrounded values exactly as in the
source. -/
def genForecastPeriod (F vol avgExp running : ℚ) (periodNum : ℕ) : ForecastPeriod :=
  let ib := F * (1 + vol * (1 / 2))
  let iw := max 0 (F * (1 - vol * (3 / 2)))
  let il := F
  let eb := avgExp * (9 / 10)
  let ew := avgExp * (11 / 10)
  let el := avgExp
  let bestNet := ib - eb
  let worstNet := iw - ew
  let likelyNet := il - el
  let bestBal := running + bestNet
  let worstBal := running + worstNet
  let likelyBal := running + likelyNet
  let leanFlag := decide (worstNet < 0)
  let riskFlag := decide (worstBal < 0)
  let dBest := el / 30
  let dLikely := min el (il + max 0 (running * (1 / 10))) / 30
  let dWorst := min iw eb / 30
  let dBudget := if riskFlag then dWorst
                 else if leanFlag then (dLikely + dWorst) / 2
                 else dLikely
  { period := periodNum,
    income := { best := ib, likely := il, worst := iw },
    expenses := { best := eb, likely := el, worst := ew },
    net_cash_flow := { best := bestNet, likely := likelyNet, worst := worstNet },
    projected_balance := { best := bestBal, likely := likelyBal, worst := worstBal },
    is_lean_period := leanFlag, balance_at_risk := riskFlag,
    daily_budget := dBudget,
    daily_ideal_spend := { best := dBest, likely := dLikely, worst := dWorst } }

/-- The forecast loop: one record per future period, carrying the likely-case
balance into the next period, and accumulating the lean / critical warnings
(their Python message text embeds formatted amounts and is abridged here). -/
def forecastLoop (F vol avgExp : ℚ) : ℕ → ℚ → ℕ → List ForecastPeriod × List String
  | 0, _, _ => ([], [])
  | n + 1, running, periodNum =>
    let fp := genForecastPeriod F vol avgExp running periodNum
    let w1 := if fp.is_lean_period
      then ["Month " ++ toString periodNum ++ ": potential lean period in the worst case"]
      else []
    let w2 := if fp.balance_at_risk
      then ["Month " ++ toString periodNum ++ ": CRITICAL - balance may go negative"]
      else []
    let rest := forecastLoop F vol avgExp n fp.projected_balance.likely (periodNum + 1)
    (fp :: rest.fst, w1 ++ w2 ++ rest.snd)

/-- Method `LeanWeekPredictor.forecast_cash_flow` on a given monthly history.  With
fewer than two months of history it returns the fixed insufficient-history
result; otherwise it derives averages, the volatility coefficient
(std/mean, 0 when the mean is not positive, std via the abstract square root
`sq`), calls the exponential-smoothing collaborator `smoothing` (module not
in the snapshot) for the income forecast and confidence, and runs the
forecast loop.  The Python `round(·, 2/3)` on the reported averages and
volatility is presentation-only and omitted. -/
def forecast_cash_flow (sq : ℚ → ℚ) (smoothing : List ℚ → ℚ × ℚ)
    (history : List MonthRecord) (forecast_periods : ℕ)
    (current_balance : ℚ) : ForecastResult :=
  if history.length < 2 then
    { recommended_daily_spend := none, forecasts := [],
      warnings := ["Insufficient transaction history for accurate forecasting"],
      confidence := 0, income_volatility := 0,
      avg_monthly_income := 0, avg_monthly_expenses := 0 }
  else
    let incomes := history.map (fun mr => mr.income)
    let expenses := history.map (fun mr => mr.expenses)
    let avgI := incomes.sum / (incomes.length : ℚ)
    let avgE := expenses.sum / (expenses.length : ℚ)
    let stdI := sq ((incomes.map (fun x => (x - avgI) ^ 2)).sum / (incomes.length : ℚ))
    let vol := if avgI > 0 then stdI / avgI else 0
    let fc := smoothing incomes
    let run := forecastLoop fc.fst vol avgE forecast_periods current_balance 1
    { recommended_daily_spend := some (match run.fst with
        | [] => 0
        | fp :: _ => fp.daily_budget),
      forecasts := run.fst, warnings := run.snd, confidence := fc.snd,
      income_volatility := vol, avg_monthly_income := avgI,
      avg_monthly_expenses := avgE }

theorem forecastLoop_get (F vol avgExp : ℚ) :
    ∀ (n : ℕ) (running : ℚ) (pn : ℕ),
      (forecastLoop F vol avgExp n running pn).fst.length = n ∧
      ∀ (i : ℕ) (h : i < (forecastLoop F vol avgExp n running pn).fst.length),
        (forecastLoop F vol avgExp n running pn).fst.get ⟨i, h⟩
          = genForecastPeriod F vol avgExp (running + (i : ℚ) * (F - avgExp)) (pn + i) := by
  intro n
  induction n with
  | zero =>
    intro running pn
    refine ⟨rfl, ?_⟩
    intro i h
    simp [forecastLoop] at h
  | succ n ih =>
    intro running pn
    constructor
    · show ((genForecastPeriod F vol avgExp running pn) ::
        (forecastLoop F vol avgExp n _ (pn + 1)).fst).length = n + 1
      rw [List.length_cons, (ih _ _).1]
    · intro i h
      cases i with
      | zero =>
        show genForecastPeriod F vol avgExp running pn
          = genForecastPeriod F vol avgExp (running + (0 : ℚ) * (F - avgExp)) (pn + 0)
        norm_num
      | succ j =>
        have hj : j < (forecastLoop F vol avgExp n
            (genForecastPeriod F vol avgExp running pn).projected_balance.likely
            (pn + 1)).fst.length := by
          have hl := (ih (genForecastPeriod F vol avgExp running pn).projected_balance.likely
            (pn + 1)).1
          rw [hl]
          have hlen : (forecastLoop F vol avgExp (n + 1) running pn).fst.length = n + 1 := by
            show ((genForecastPeriod F vol avgExp running pn) ::
              (forecastLoop F vol avgExp n _ (pn + 1)).fst).length = n + 1
            rw [List.length_cons, (ih _ _).1]
          omega
        have hstep := (ih (genForecastPeriod F vol avgExp running pn).projected_balance.likely
          (pn + 1)).2 j hj
        have hlik : (genForecastPeriod F vol avgExp running pn).projected_balance.likely
            = running + (F - avgExp) := rfl
        have harith : running + (F - avgExp) + (j : ℚ) * (F - avgExp)
            = running + ((j + 1 : ℕ) : ℚ) * (F - avgExp) := by
          push_cast
          ring
        have hpn : pn + 1 + j = pn + (j + 1) := by omega
        calc (forecastLoop F vol avgExp (n + 1) running pn).fst.get ⟨j + 1, h⟩
            = (forecastLoop F vol avgExp n
                (genForecastPeriod F vol avgExp running pn).projected_balance.likely
                (pn + 1)).fst.get ⟨j, hj⟩ := rfl
          _ = genForecastPeriod F vol avgExp
                ((genForecastPeriod F vol avgExp running pn).projected_balance.likely
                  + (j : ℚ) * (F - avgExp)) (pn + 1 + j) := hstep
          _ = genForecastPeriod F vol avgExp
                (running + ((j + 1 : ℕ) : ℚ) * (F - avgExp)) (pn + (j + 1)) := by
              rw [hlik, harith, hpn]

/-- C10: with fewer than two months of history, `forecast_cash_flow` returns
the fixed result with no forecasts, zero confidence, volatility and averages,
and exactly one warning saying the history is insufficient — no forecast
computation happens. -/
theorem C10_insufficient_history (sq : ℚ → ℚ) (smoothing : List ℚ → ℚ × ℚ)
    (history : List MonthRecord) (periods : ℕ) (bal : ℚ)
    (h : history.length < 2) :
    forecast_cash_flow sq smoothing history periods bal
      = { recommended_daily_spend := none, forecasts := [],
          warnings := ["Insufficient transaction history for accurate forecasting"],
          confidence := 0, income_volatility := 0,
          avg_monthly_income := 0, avg_monthly_expenses := 0 } ∧
    (forecast_cash_flow sq smoothing history periods bal).warnings.length = 1 := by
  constructor
  · rw [forecast_cash_flow, if_pos h]
  · rw [forecast_cash_flow, if_pos h]
    rfl

/-- Witness for C10 at a single-month history. -/
theorem C10_insufficient_history_witness :
    forecast_cash_flow (fun q => q) (fun _ => (0, 0))
        [{ income := 1000, expenses := 500 }] 3 0
      = { recommended_daily_spend := none, forecasts := [],
          warnings := ["Insufficient transaction history for accurate forecasting"],
          confidence := 0, income_volatility := 0,
          avg_monthly_income := 0, avg_monthly_expenses := 0 } :=
  (C10_insufficient_history (fun q => q) (fun _ => (0, 0))
    [{ income := 1000, expenses := 500 }] 3 0 (by norm_num)).1

/-- C7: with at least two months of history, every generated forecast period
has best income = forecast * (1 + 0.5 * volatility), worst income =
max(0, forecast * (1 - 1.5 * volatility)), likely income = forecast;
best / worst expenses are the historical average times 0.9 and 1.1; the lean
flag holds exactly when the worst-case net flow is negative and the
balance-risk flag exactly when the worst-case running balance is negative;
and the balance carried into period i is the likely-case balance
bal + i * (forecast - average expenses), so each scenario balance is that
carry plus the scenario's net flow. -/
theorem C7_forecast_bands (sq : ℚ → ℚ) (smoothing : List ℚ → ℚ × ℚ)
    (a0 b0 : MonthRecord) (rest : List MonthRecord) (periods : ℕ)
    (bal F vol avgE : ℚ)
    (hF : F = (smoothing ((a0 :: b0 :: rest).map (fun mr => mr.income))).fst)
    (hvol : vol = (forecast_cash_flow sq smoothing (a0 :: b0 :: rest) periods
      bal).income_volatility)
    (hE : avgE = (forecast_cash_flow sq smoothing (a0 :: b0 :: rest) periods
      bal).avg_monthly_expenses) :
    (forecast_cash_flow sq smoothing (a0 :: b0 :: rest) periods bal).forecasts.length
        = periods ∧
    (∀ (i : ℕ)
        (h : i < (forecast_cash_flow sq smoothing (a0 :: b0 :: rest) periods
          bal).forecasts.length),
      (forecast_cash_flow sq smoothing (a0 :: b0 :: rest) periods bal).forecasts.get ⟨i, h⟩
        = genForecastPeriod F vol avgE (bal + (i : ℚ) * (F - avgE)) (1 + i)) ∧
    (∀ (running : ℚ) (pn : ℕ),
      (genForecastPeriod F vol avgE running pn).income.best
          = F * (1 + vol * (1 / 2)) ∧
      (genForecastPeriod F vol avgE running pn).income.worst
          = max 0 (F * (1 - vol * (3 / 2))) ∧
      (genForecastPeriod F vol avgE running pn).income.likely = F ∧
      (genForecastPeriod F vol avgE running pn).expenses.best = avgE * (9 / 10) ∧
      (genForecastPeriod F vol avgE running pn).expenses.worst = avgE * (11 / 10) ∧
      (genForecastPeriod F vol avgE running pn).expenses.likely = avgE ∧
      (genForecastPeriod F vol avgE running pn).is_lean_period
          = decide ((genForecastPeriod F vol avgE running pn).net_cash_flow.worst < 0) ∧
      (genForecastPeriod F vol avgE running pn).balance_at_risk
          = decide ((genForecastPeriod F vol avgE running pn).projected_balance.worst < 0) ∧
      (genForecastPeriod F vol avgE running pn).projected_balance.best
          = running + (genForecastPeriod F vol avgE running pn).net_cash_flow.best ∧
      (genForecastPeriod F vol avgE running pn).projected_balance.worst
          = running + (genForecastPeriod F vol avgE running pn).net_cash_flow.worst ∧
      (genForecastPeriod F vol avgE running pn).projected_balance.likely
          = running + (F - avgE)) := by
  have hlt : ¬ (a0 :: b0 :: rest).length < 2 := by
    simp only [List.length_cons]
    omega
  have hfc : (forecast_cash_flow sq smoothing (a0 :: b0 :: rest) periods bal).forecasts
      = (forecastLoop (smoothing ((a0 :: b0 :: rest).map (fun mr => mr.income))).fst
          ((forecast_cash_flow sq smoothing (a0 :: b0 :: rest) periods bal).income_volatility)
          ((forecast_cash_flow sq smoothing (a0 :: b0 :: rest) periods bal).avg_monthly_expenses)
          periods bal 1).fst := by
    conv_lhs => rw [forecast_cash_flow, if_neg hlt]
    conv_rhs => rw [forecast_cash_flow, if_neg hlt]
  rw [hF, hvol, hE]
  refine ⟨?_, ?_, ?_⟩
  · rw [hfc]
    exact (forecastLoop_get _ _ _ periods bal 1).1
  · intro i h
    revert h
    rw [hfc]
    intro h
    exact (forecastLoop_get
      (smoothing ((a0 :: b0 :: rest).map (fun mr => mr.income))).fst
      ((forecast_cash_flow sq smoothing (a0 :: b0 :: rest) periods bal).income_volatility)
      ((forecast_cash_flow sq smoothing (a0 :: b0 :: rest) periods bal).avg_monthly_expenses)
      periods bal 1).2 i h
  · intro running pn
    refine ⟨rfl, rfl, rfl, rfl, rfl, rfl, rfl, rfl, rfl, rfl, rfl⟩

/-- Witness for C7 at a concrete two-month history with one forecast
period. -/
theorem C7_forecast_bands_witness :
    (forecast_cash_flow (fun q => q) (fun _ => (1200, 1 / 2))
        [{ income := 1000, expenses := 500 }, { income := 1400, expenses := 700 }]
        1 100).forecasts.length = 1 :=
  (C7_forecast_bands (fun q => q) (fun _ => (1200, 1 / 2))
    { income := 1000, expenses := 500 } { income := 1400, expenses := 700 } [] 1 100
    1200
    ((forecast_cash_flow (fun q => q) (fun _ => (1200, 1 / 2))
      [{ income := 1000, expenses := 500 }, { income := 1400, expenses := 700 }]
      1 100).income_volatility)
    ((forecast_cash_flow (fun q => q) (fun _ => (1200, 1 / 2))
      [{ income := 1000, expenses := 500 }, { income := 1400, expenses := 700 }]
      1 100).avg_monthly_expenses)
    rfl rfl rfl).1

end Volt
